import Mathlib

/-!
Shallow embedding of the `colonoscopy` health-aggregation service
(Rust sources: src/types.rs, src/server.rs, src/main.rs, src/lib.rs),
together with theorems settling the specification claims.

Conventions of the embedding:
* Rust enums/structs become Lean inductives/structures with the same
  field names.
* The poll loop body of `polling_task` (src/server.rs) is modelled as a
  pure function from the list of per-probe outcomes of one cycle to the
  tree written into the shared slot, plus an event trace capturing the
  order of invocations, completions and the publish step.
* PyO3 values reaching `ServiceStatus::try_from` are modelled by the
  inductive `PyValue`; fallible conversions return `Except String _`.
-/

/-- Embeds `StatusColor` (src/types.rs): `enum StatusColor { Red, Orange, Green }`. -/
inductive StatusColor where
  | Red
  | Orange
  | Green
deriving DecidableEq, Repr

/-- Embeds `ServiceStatus` (src/types.rs): a node of the health tree with
`name`, `status`, optional `description` and a list of `subservices`. -/
structure ServiceStatus where
  name : String
  status : StatusColor
  description : Option String
  subservices : List ServiceStatus

/-- Embeds `py_status_to_rust` (src/types.rs, lines 45-51):
`"GREEN"` maps to Green, `"ORANGE"` to Orange, anything else to Red. -/
def py_status_to_rust (color : String) : StatusColor :=
  if color = "GREEN" then StatusColor.Green
  else if color = "ORANGE" then StatusColor.Orange
  else StatusColor.Red

/-- Embeds the `global_status` computation of `polling_task`
(src/server.rs, lines 126-138): Green when `iter().all` finds every status
Green (vacuously true on the empty list), otherwise Red when `iter().any`
finds some Red, otherwise Orange. -/
def aggregate (subs : List ServiceStatus) : StatusColor :=
  if subs.all (fun s => s.status = StatusColor.Green) then StatusColor.Green
  else if subs.any (fun s => s.status = StatusColor.Red) then StatusColor.Red
  else StatusColor.Orange

/-- The possible outcomes of one probe in one poll cycle, following the
three-level `match` in `polling_task` (src/server.rs, lines 106-124):
the `into_future` conversion can fail, the awaited `health()` call can
raise, the result can fail to convert, or a `ServiceStatus` is obtained. -/
inductive ProbeOutcome where
  | ok (s : ServiceStatus)
  | futureError (msg : String)
  | raised (msg : String)
  | convertError (msg : String)

/-- Whether an outcome is one of the three failure branches, each of which
`polling_task` handles by calling `log_py_err` and pushing nothing. -/
def ProbeOutcome.isFailure : ProbeOutcome → Bool
  | .ok _ => false
  | .futureError _ => true
  | .raised _ => true
  | .convertError _ => true

/-- The `sub_statuses` vector built by the probe loop of `polling_task`
(src/server.rs, lines 104-124): only `Ok` conversions are pushed; every
failure branch merely logs and contributes nothing. -/
def collectStatuses (outcomes : List ProbeOutcome) : List ServiceStatus :=
  outcomes.filterMap fun o =>
    match o with
    | .ok s => some s
    | _ => none

/-- The tree written into the shared slot at the end of one poll cycle
(src/server.rs, lines 140-145): name `"medic"`, status `global_status`,
no description, and `sub_statuses` as subservices. -/
def publishedTree (outcomes : List ProbeOutcome) : ServiceStatus :=
  { name := "medic"
    status := aggregate (collectStatuses outcomes)
    description := none
    subservices := collectStatuses outcomes }

/-- Embeds the startup tree installed by `set_probe` before spawning the
poller (src/server.rs, lines 160-166). -/
def startupTree : ServiceStatus :=
  { name := "medic"
    status := StatusColor.Orange
    description := some "warming up"
    subservices := [] }

/-- Embeds `initial_health` (src/main.rs, lines 61-86), the tree the
standalone demo binary installs in its shared slot at startup. -/
def initial_health : ServiceStatus :=
  { name := "medic"
    status := StatusColor.Green
    description := some "All systems nominal"
    subservices :=
      [ { name := "database"
          status := StatusColor.Green
          description := none
          subservices := [] },
        { name := "external-api"
          status := StatusColor.Orange
          description := some "latency high"
          subservices :=
            [ { name := "auth"
                status := StatusColor.Red
                description := some "token refresh failed"
                subservices := [] } ] } ] }

/-- One observable event of a poll cycle: probe `i` is invoked
(`call_method0("health")` followed by `into_future`), probe `i` is
resolved (its future awaited, or its error branch taken), or the cycle
writes the new tree into the shared slot. -/
inductive PollEvent where
  | invoke (i : Nat)
  | complete (i : Nat)
  | publish
deriving DecidableEq, Repr

/-- The events produced by the `for obj in &py_services` loop of
`polling_task` (src/server.rs, lines 106-124) for probes
`start, start+1, ...`: the loop body first invokes probe `start`, then
awaits its outcome, and only then moves on to the next probe. -/
def probeEvents : Nat → Nat → List PollEvent
  | _, 0 => []
  | start, n + 1 =>
      PollEvent.invoke start :: PollEvent.complete start :: probeEvents (start + 1) n

/-- The event trace of one cycle of `polling_task` with `n` probes: the
sequential probe loop, then the single write into the shared slot
(src/server.rs, lines 140-145). -/
def cycleTrace (n : Nat) : List PollEvent :=
  probeEvents 0 n ++ [PollEvent.publish]

/-- The top-level keys of the serde JSON object serialized for one
`ServiceStatus` node (src/types.rs, lines 16-24), in field order:
`name` and `status` always; `description` skipped exactly when
`Option::is_none`; `subservices` skipped exactly when `Vec::is_empty`. -/
def serializedKeys (s : ServiceStatus) : List String :=
  ["name", "status"]
    ++ (match s.description with
        | none => []
        | some _ => ["description"])
    ++ (if s.subservices.isEmpty then [] else ["subservices"])

/-- A Python value as far as the conversion code inspects it: a native
`ServiceStatus` instance, a string, a list, a dict (an ordered key-value
sequence with string keys), or any other object. -/
inductive PyValue where
  | native (s : ServiceStatus)
  | pyStr (s : String)
  | pyList (xs : List PyValue)
  | pyDict (items : List (String × PyValue))
  | other

/-- Embeds `PyDict::get_item`: the value stored under `key`, if any. -/
def getItem (items : List (String × PyValue)) (key : String) : Option PyValue :=
  (items.find? (fun p => p.1 == key)).map (fun p => p.2)

/-- Embeds `.extract::<String>()`: succeeds exactly on Python strings. -/
def extractString : PyValue → Except String String
  | .pyStr s => Except.ok s
  | _ => Except.error "TypeError: not a string"

/-- Embeds `dict_to_status` (src/types.rs, lines 53-73): requires `name`
and `status` entries extractable as strings, extracts `description` when
present, and always builds the result with `subservices: Vec::new()`. -/
def dict_to_status (items : List (String × PyValue)) : Except String ServiceStatus :=
  match getItem items "name" with
  | none => Except.error "KeyError: name"
  | some nameVal =>
    match extractString nameVal with
    | Except.error e => Except.error e
    | Except.ok name =>
      match getItem items "status" with
      | none => Except.error "KeyError: status"
      | some statusVal =>
        match extractString statusVal with
        | Except.error e => Except.error e
        | Except.ok statusStr =>
          match (match getItem items "description" with
                 | none => Except.ok none
                 | some v => Except.map some (extractString v) :
                   Except String (Option String)) with
          | Except.error e => Except.error e
          | Except.ok description =>
            Except.ok { name := name
                        status := py_status_to_rust statusStr
                        description := description
                        subservices := [] }

/-- Embeds `impl TryFrom<&PyAny> for ServiceStatus` (src/types.rs,
lines 75-84): a native `ServiceStatus` extracts as itself, otherwise the
value must downcast to a dict and go through `dict_to_status`. -/
def try_from : PyValue → Except String ServiceStatus
  | .native s => Except.ok s
  | .pyDict items => dict_to_status items
  | _ => Except.error "TypeError: cannot downcast to PyDict"

/-- Every failure branch of the probe loop contributes `none` to the
`filterMap` that builds `sub_statuses`. -/
theorem collect_skip (xs ys : List ProbeOutcome) (o : ProbeOutcome)
    (h : o.isFailure = true) :
    collectStatuses (xs ++ o :: ys) = collectStatuses (xs ++ ys) := by
  unfold collectStatuses
  cases o with
  | ok s => simp [ProbeOutcome.isFailure] at h
  | futureError m => simp [List.filterMap_append]
  | raised m => simp [List.filterMap_append]
  | convertError m => simp [List.filterMap_append]

/-- The auxiliary characterisation of `aggregate` returning Green. -/
theorem aggregate_eq_green (subs : List ServiceStatus) :
    aggregate subs = StatusColor.Green ↔ ∀ s ∈ subs, s.status = StatusColor.Green := by
  unfold aggregate
  by_cases h : subs.all (fun s => s.status = StatusColor.Green)
  · rw [if_pos h]
    simp only [List.all_eq_true, decide_eq_true_eq] at h
    exact ⟨fun _ => h, fun _ => rfl⟩
  · rw [if_neg h]
    constructor
    · intro hc
      split at hc <;> simp_all
    · intro hall
      exact absurd (by simpa [List.all_eq_true] using hall) h

theorem probeEvents_length (start n : Nat) :
    (probeEvents start n).length = 2 * n := by
  induction n generalizing start with
  | zero => rfl
  | succ n ih =>
    simp only [probeEvents, List.length_cons, ih]
    omega

theorem probeEvents_getElem (start n i : Nat) (h : i < n) :
    (probeEvents start n)[2 * i]? = some (PollEvent.invoke (start + i)) ∧
    (probeEvents start n)[2 * i + 1]? = some (PollEvent.complete (start + i)) := by
  induction n generalizing start i with
  | zero => omega
  | succ n ih =>
    cases i with
    | zero => constructor <;> simp [probeEvents]
    | succ i =>
      have h' : i < n := by omega
      have hrec := ih (start + 1) i h'
      have e1 : 2 * (i + 1) = 2 * i + 1 + 1 := by omega
      have e2 : start + (i + 1) = start + 1 + i := by omega
      rw [e1, e2]
      simpa [probeEvents] using hrec

theorem probeEvents_publish_free (start n : Nat) :
    (probeEvents start n).count PollEvent.publish = 0 := by
  induction n generalizing start with
  | zero => rfl
  | succ n ih => simp [probeEvents, List.count_cons, ih]

/-- C1 counterexample: a cycle whose single probe raises publishes a tree
with an empty subservices list — the failing probe contributes no leaf at
all, in particular no Red leaf with a description. -/
theorem claim_failed_probe_red_leaf_counterexample :
    (publishedTree [ProbeOutcome.raised "boom"]).subservices = [] ∧
    ¬ (∃ leaf, leaf ∈ (publishedTree [ProbeOutcome.raised "boom"]).subservices ∧
        leaf.status = StatusColor.Red ∧ leaf.description ≠ none) := by
  refine ⟨rfl, ?_⟩
  rintro ⟨leaf, hmem, -, -⟩
  simp [publishedTree, collectStatuses] at hmem

/-- C1 amended: a probe whose future creation fails, whose `health()`
raises, or whose result fails to convert is omitted from the published
tree (its failure is only logged); the cycle still completes and
publishes the tree built from the remaining outcomes. -/
theorem claim_failed_probe_omitted (xs ys : List ProbeOutcome) (o : ProbeOutcome)
    (h : o.isFailure = true) :
    publishedTree (xs ++ o :: ys) = publishedTree (xs ++ ys) := by
  unfold publishedTree
  rw [collect_skip xs ys o h]

/-- Witness for the amended C1: dropping the raising probe from a
concrete two-probe cycle leaves the published tree unchanged. -/
theorem claim_failed_probe_omitted_witness :
    publishedTree ([ProbeOutcome.ok ⟨"db", StatusColor.Green, none, []⟩] ++
        ProbeOutcome.raised "boom" :: []) =
      publishedTree ([ProbeOutcome.ok ⟨"db", StatusColor.Green, none, []⟩] ++ []) :=
  claim_failed_probe_omitted [ProbeOutcome.ok ⟨"db", StatusColor.Green, none, []⟩] []
    (ProbeOutcome.raised "boom") rfl

/-- C2: the `global_status` computation in `polling_task` returns Green
iff every child status is Green, and returns Green on the empty sequence. -/
theorem claim_aggregate_green :
    (∀ subs : List ServiceStatus,
        (aggregate subs = StatusColor.Green ↔
          ∀ s ∈ subs, s.status = StatusColor.Green)) ∧
    aggregate [] = StatusColor.Green :=
  ⟨aggregate_eq_green, by decide⟩

/-- Witness for C2 at concrete inputs: a singleton Green list aggregates
to Green, via the iff. -/
theorem claim_aggregate_green_witness :
    aggregate [⟨"db", StatusColor.Green, none, []⟩] = StatusColor.Green :=
  (claim_aggregate_green.1 [⟨"db", StatusColor.Green, none, []⟩]).mpr
    (by intro s hs; fin_cases hs; rfl)

/-- C3: for any sequence with at least one Red child, `global_status` is
Red; for any non-empty sequence with no Red child and at least one
non-Green child, it is Orange. -/
theorem claim_aggregate_red_orange (subs : List ServiceStatus) :
    ((∃ s ∈ subs, s.status = StatusColor.Red) → aggregate subs = StatusColor.Red) ∧
    (subs ≠ [] → (∀ s ∈ subs, s.status ≠ StatusColor.Red) →
      (∃ s ∈ subs, s.status ≠ StatusColor.Green) →
      aggregate subs = StatusColor.Orange) := by
  constructor
  · rintro ⟨s, hs, hred⟩
    have hnotall : ¬ (subs.all (fun t => t.status = StatusColor.Green) = true) := by
      simp only [List.all_eq_true, decide_eq_true_eq]
      intro hall
      have := hall s hs
      rw [hred] at this
      exact StatusColor.noConfusion this
    have hany : subs.any (fun t => t.status = StatusColor.Red) = true := by
      simp only [List.any_eq_true, decide_eq_true_eq]
      exact ⟨s, hs, hred⟩
    unfold aggregate
    rw [if_neg hnotall, if_pos hany]
  · rintro _ hnored ⟨s, hs, hng⟩
    have hnotall : ¬ (subs.all (fun t => t.status = StatusColor.Green) = true) := by
      simp only [List.all_eq_true, decide_eq_true_eq]
      intro hall
      exact hng (hall s hs)
    have hnoany : ¬ (subs.any (fun t => t.status = StatusColor.Red) = true) := by
      simp only [List.any_eq_true, decide_eq_true_eq]
      rintro ⟨t, ht, hred⟩
      exact hnored t ht hred
    unfold aggregate
    rw [if_neg hnotall, if_neg hnoany]

/-- Witness for C3 at concrete inputs: `[Green, Green, Red]` aggregates
to Red and `[Green, Orange]` aggregates to Orange. -/
theorem claim_aggregate_red_orange_witness :
    aggregate [⟨"a", StatusColor.Green, none, []⟩,
               ⟨"b", StatusColor.Green, none, []⟩,
               ⟨"c", StatusColor.Red, none, []⟩] = StatusColor.Red ∧
    aggregate [⟨"a", StatusColor.Green, none, []⟩,
               ⟨"b", StatusColor.Orange, none, []⟩] = StatusColor.Orange :=
  ⟨(claim_aggregate_red_orange _).1
      ⟨⟨"c", StatusColor.Red, none, []⟩, by simp, rfl⟩,
   (claim_aggregate_red_orange _).2 (by simp)
      (by rintro s hs; fin_cases hs <;> simp)
      ⟨⟨"b", StatusColor.Orange, none, []⟩, by simp, by simp⟩⟩

/-- C4: every tree written into the shared slot by `polling_task` has a
root status equal to the aggregation rule applied to its own
subservices list. -/
theorem claim_root_status_derived (outcomes : List ProbeOutcome) :
    (publishedTree outcomes).status = aggregate (publishedTree outcomes).subservices :=
  rfl

/-- Witness for C4 at a concrete cycle with one Red probe. -/
theorem claim_root_status_derived_witness :
    (publishedTree [ProbeOutcome.ok ⟨"db", StatusColor.Red, none, []⟩]).status =
      aggregate (publishedTree [ProbeOutcome.ok ⟨"db", StatusColor.Red, none, []⟩]).subservices :=
  claim_root_status_derived [ProbeOutcome.ok ⟨"db", StatusColor.Red, none, []⟩]

/-- C5 counterexample: the tree served by the demo binary of main.rs
before any poll (it runs no poller at all) is `initial_health`, whose
status is Green, not Orange, and whose subservices list is non-empty. -/
theorem claim_startup_placeholder_counterexample :
    initial_health.status ≠ StatusColor.Orange ∧
    initial_health.subservices ≠ [] := by
  constructor <;> simp [initial_health]

/-- C5 amended: the server started through `set_probe` installs, before
the first poll cycle completes, the placeholder with status Orange,
non-empty description and no subservices; the standalone demo binary of
main.rs instead installs an example tree with status Green and non-empty
subservices. -/
theorem claim_startup_placeholder :
    (startupTree.status = StatusColor.Orange ∧
      startupTree.description = some "warming up" ∧
      "warming up" ≠ "" ∧
      startupTree.subservices = []) ∧
    (initial_health.status = StatusColor.Green ∧
      initial_health.subservices ≠ []) := by
  refine ⟨⟨rfl, rfl, by decide, rfl⟩, rfl, by simp [initial_health]⟩

/-- C6 counterexample: with two probes, the cycle trace is literally
invoke 0, complete 0, invoke 1, complete 1, publish — probe 0's
completion is awaited strictly before probe 1 is invoked, so the probe
invocations do not run concurrently against each other. -/
theorem claim_concurrent_probes_counterexample :
    cycleTrace 2 =
      [PollEvent.invoke 0, PollEvent.complete 0,
       PollEvent.invoke 1, PollEvent.complete 1, PollEvent.publish] ∧
    (cycleTrace 2).indexOf (PollEvent.complete 0) <
      (cycleTrace 2).indexOf (PollEvent.invoke 1) := by
  constructor
  · rfl
  · decide

/-- C6 amended: within one poll cycle the probe invocations run
sequentially — probe `i` is invoked at trace position `2i` and resolved
at position `2i+1`, before probe `i+1` is invoked at position `2(i+1)` —
and the single publish event is the last event of the cycle, after every
probe outcome has been collected, so no partial result is published
mid-cycle. -/
theorem claim_sequential_cycle (n i : Nat) (h : i < n) :
    (cycleTrace n)[2 * i]? = some (PollEvent.invoke i) ∧
    (cycleTrace n)[2 * i + 1]? = some (PollEvent.complete i) ∧
    (cycleTrace n)[2 * n]? = some PollEvent.publish ∧
    (cycleTrace n).length = 2 * n + 1 ∧
    (cycleTrace n).count PollEvent.publish = 1 := by
  have hlen := probeEvents_length 0 n
  have hget := probeEvents_getElem 0 n i h
  refine ⟨?_, ?_, ?_, ?_, ?_⟩
  · rw [cycleTrace, List.getElem?_append_left (by omega)]
    simpa using hget.1
  · rw [cycleTrace, List.getElem?_append_left (by omega)]
    simpa using hget.2
  · rw [cycleTrace, List.getElem?_append_right (by omega), hlen]
    simp
  · simp [cycleTrace, hlen]
  · simp [cycleTrace, List.count_append, probeEvents_publish_free]

/-- Witness for the amended C6 at a concrete two-probe cycle. -/
theorem claim_sequential_cycle_witness :
    (cycleTrace 2)[2 * 0]? = some (PollEvent.invoke 0) ∧
    (cycleTrace 2)[2 * 0 + 1]? = some (PollEvent.complete 0) ∧
    (cycleTrace 2)[2 * 2]? = some PollEvent.publish ∧
    (cycleTrace 2).length = 2 * 2 + 1 ∧
    (cycleTrace 2).count PollEvent.publish = 1 :=
  claim_sequential_cycle 2 0 (by decide)

/-- C7 counterexample: a node whose description is the empty string still
serializes a `description` key — serde only skips `None`, not empty
strings. -/
theorem claim_json_omission_counterexample :
    (⟨"x", StatusColor.Green, some "", []⟩ : ServiceStatus).description = some "" ∧
    "description" ∈ serializedKeys ⟨"x", StatusColor.Green, some "", []⟩ := by
  exact ⟨rfl, by simp [serializedKeys]⟩

/-- C7 amended: the `description` key is absent exactly when the
description is `None` (a present empty string is still serialized), and
the `subservices` key is absent exactly when the subservices list is
empty. -/
theorem claim_json_omission (s : ServiceStatus) :
    ("description" ∈ serializedKeys s ↔ s.description ≠ none) ∧
    ("subservices" ∈ serializedKeys s ↔ s.subservices ≠ []) := by
  cases hd : s.description <;>
    cases hs : s.subservices <;>
      simp [serializedKeys, hd, hs]

/-- Witness for the amended C7 at a concrete node with a description and
no subservices. -/
theorem claim_json_omission_witness :
    ("description" ∈ serializedKeys ⟨"db", StatusColor.Green, some "ok", []⟩ ↔
      (⟨"db", StatusColor.Green, some "ok", []⟩ : ServiceStatus).description ≠ none) ∧
    ("subservices" ∈ serializedKeys ⟨"db", StatusColor.Green, some "ok", []⟩ ↔
      (⟨"db", StatusColor.Green, some "ok", []⟩ : ServiceStatus).subservices ≠ []) :=
  claim_json_omission ⟨"db", StatusColor.Green, some "ok", []⟩

/-- C8 counterexample: a dict record carrying a non-empty `subservices`
entry converts successfully, but the resulting `ServiceStatus` has an
empty subservices list — the record's subservices are dropped. -/
theorem claim_probe_subtree_counterexample :
    getItem
        [("name", PyValue.pyStr "parent"), ("status", PyValue.pyStr "GREEN"),
         ("subservices",
          PyValue.pyList [PyValue.pyDict
            [("name", PyValue.pyStr "child"), ("status", PyValue.pyStr "RED")]])]
        "subservices" =
      some (PyValue.pyList [PyValue.pyDict
        [("name", PyValue.pyStr "child"), ("status", PyValue.pyStr "RED")]]) ∧
    try_from (PyValue.pyDict
        [("name", PyValue.pyStr "parent"), ("status", PyValue.pyStr "GREEN"),
         ("subservices",
          PyValue.pyList [PyValue.pyDict
            [("name", PyValue.pyStr "child"), ("status", PyValue.pyStr "RED")]])]) =
      Except.ok ⟨"parent", StatusColor.Green, none, []⟩ :=
  ⟨rfl, rfl⟩

/-- C8 amended: only a probe result that is already a native
`ServiceStatus` object carries its subservices through the conversion
(so only native objects can contribute a subtree); a dict record always
converts to a leaf — whatever `subservices` entry it carries, the
converted `ServiceStatus` has an empty subservices list. -/
theorem claim_probe_subtree :
    (∀ s : ServiceStatus, try_from (PyValue.native s) = Except.ok s) ∧
    (∀ (items : List (String × PyValue)) (r : ServiceStatus),
        try_from (PyValue.pyDict items) = Except.ok r → r.subservices = []) := by
  refine ⟨fun s => rfl, fun items r h => ?_⟩
  have h2 : dict_to_status items = Except.ok r := h
  unfold dict_to_status at h2
  repeat' split at h2
  all_goals cases h2
  rfl

/-- Witness for the amended C8: a native object with a child subtree
round-trips intact, and a concrete dict with a `subservices` entry
converts to a leaf. -/
theorem claim_probe_subtree_witness :
    try_from (PyValue.native
        ⟨"svc", StatusColor.Green, none, [⟨"child", StatusColor.Red, none, []⟩]⟩) =
      Except.ok ⟨"svc", StatusColor.Green, none,
        [⟨"child", StatusColor.Red, none, []⟩]⟩ ∧
    (⟨"parent", StatusColor.Green, none, []⟩ : ServiceStatus).subservices = [] :=
  ⟨claim_probe_subtree.1 _,
   claim_probe_subtree.2
     [("name", PyValue.pyStr "parent"), ("status", PyValue.pyStr "GREEN"),
      ("subservices", PyValue.pyList [])]
     ⟨"parent", StatusColor.Green, none, []⟩ rfl⟩

/-- C9: when every probe outcome of a cycle is a failure, the published
tree equals the one published for a zero-probe configuration: status
Green, empty subservices. -/
theorem claim_all_failed_green (outcomes : List ProbeOutcome)
    (h : ∀ o ∈ outcomes, o.isFailure = true) :
    publishedTree outcomes = publishedTree [] ∧
    (publishedTree outcomes).status = StatusColor.Green ∧
    (publishedTree outcomes).subservices = [] := by
  have hnil : collectStatuses outcomes = [] := by
    unfold collectStatuses
    rw [List.filterMap_eq_nil_iff]
    intro o ho
    cases o with
    | ok s => simpa [ProbeOutcome.isFailure] using h _ ho
    | futureError m => rfl
    | raised m => rfl
    | convertError m => rfl
  unfold publishedTree
  rw [hnil]
  exact ⟨rfl, by decide, rfl⟩

/-- Witness for C9: a cycle where both probes fail publishes the
all-Green empty tree. -/
theorem claim_all_failed_green_witness :
    publishedTree [ProbeOutcome.raised "boom", ProbeOutcome.convertError "bad dict"] =
      publishedTree [] ∧
    (publishedTree [ProbeOutcome.raised "boom", ProbeOutcome.convertError "bad dict"]).status =
      StatusColor.Green ∧
    (publishedTree [ProbeOutcome.raised "boom", ProbeOutcome.convertError "bad dict"]).subservices =
      [] :=
  claim_all_failed_green _ (by intro o ho; fin_cases ho <;> rfl)

/-- C10: `py_status_to_rust` maps "GREEN" to Green, "ORANGE" to Orange,
and every other string to Red. -/
theorem claim_status_string (s : String) :
    py_status_to_rust "GREEN" = StatusColor.Green ∧
    py_status_to_rust "ORANGE" = StatusColor.Orange ∧
    (s ≠ "GREEN" → s ≠ "ORANGE" → py_status_to_rust s = StatusColor.Red) := by
  refine ⟨rfl, rfl, fun h1 h2 => ?_⟩
  unfold py_status_to_rust
  rw [if_neg h1, if_neg h2]

/-- Witness for C10 at concrete strings: "RED", a lowercase variant and
garbage all map to Red. -/
theorem claim_status_string_witness :
    py_status_to_rust "RED" = StatusColor.Red ∧
    py_status_to_rust "green" = StatusColor.Red ∧
    py_status_to_rust "garbage" = StatusColor.Red :=
  ⟨(claim_status_string "RED").2.2 (by decide) (by decide),
   (claim_status_string "green").2.2 (by decide) (by decide),
   (claim_status_string "garbage").2.2 (by decide) (by decide)⟩
